import Mathlib

/-!
Shallow embedding of the CSV ingestion engine of the slack-csv-analysis-bot
repository (`FlexibleCSVAnalyzer` in `api/slack.js`, row-capping loop of
`CSVProcessor.parseCSVStream` in `src/CSVProcessor.js`), together with
theorems settling the specification claims about it.

JavaScript numbers are modelled as exact rationals (`ℚ`), JS strings as
Lean `String` (a list of characters), and JS objects built by repeated
key assignment as association lists with in-place update on an existing
key.  The `Math.random()` draw used by `cleanHeader` is modelled as an
explicit stream of suffix strings passed to the function.
-/

namespace CSVBot

set_option allowUnsafeReducibility true

set_option maxRecDepth 40000

set_option maxHeartbeats 1000000

attribute [local semireducible] Rat.add Rat.mul Rat.inv Rat.sub

/-- The single-quote character `'` (spelled via its code point). -/
def squote : Char := Char.ofNat 39

/-- The backtick character (spelled via its code point). -/
def btick : Char := Char.ofNat 96

/-- Strip leading and trailing whitespace from a character list,
mirroring JavaScript `String.prototype.trim` on ASCII whitespace. -/
def trimChars (cs : List Char) : List Char :=
  ((cs.dropWhile Char.isWhitespace).reverse.dropWhile Char.isWhitespace).reverse

/-- JS `s.trim()`. -/
def strTrim (s : String) : String := String.mk (trimChars s.data)

/-- Split a character list at every occurrence of `sep`, mirroring
JS `String.prototype.split` with a single-character separator:
the empty list yields one empty part. -/
def splitCharsOn (sep : Char) : List Char → List (List Char)
  | [] => [[]]
  | c :: rest =>
    match splitCharsOn sep rest with
    | [] => if c = sep then [[], []] else [[c]]
    | h :: t => if c = sep then [] :: h :: t else (c :: h) :: t

/-- JS `text.split('\n')`. -/
def jsSplitNewline (s : String) : List String :=
  (splitCharsOn '\n' s.data).map String.mk

/-- Tagged value model of the dynamically-typed cell contents produced by
the engine: JS `null`, a JS number, or a JS string. -/
inductive Value
  | null
  | number (q : ℚ)
  | text (s : String)
  deriving DecidableEq, Repr

/-- A data row, as built by repeated `row[header] = value` assignments. -/
abbrev Record := List (String × Value)

/-- Scanner of `FlexibleCSVAnalyzer.splitCSVLine`: two-state quote-aware
walk over the characters of one line.  `inQ` and `qc` mirror the
`inQuotes` / `quoteChar` mutable variables, `cur` the accumulator. -/
def scanLine (delim : Char) : List Char → Bool → Option Char → String → List String
  | [], _, _, cur => [strTrim cur]
  | c :: rest, inQ, qc, cur =>
    if (c = '"' ∨ c = squote) ∧ inQ = false then
      scanLine delim rest true (some c) cur
    else if some c = qc ∧ inQ = true then
      match rest with
      | [] => scanLine delim [] false none cur
      | c2 :: rest2 =>
        if c2 = c then scanLine delim rest2 true qc (cur.push c)
        else scanLine delim (c2 :: rest2) false none cur
    else if c = delim ∧ inQ = false then
      strTrim cur :: scanLine delim rest inQ qc ""
    else
      scanLine delim rest inQ qc (cur.push c)

/-- `FlexibleCSVAnalyzer.splitCSVLine(line, delimiter)`. -/
def splitCSVLine (line : String) (delim : Char) : List String :=
  scanLine delim line.data false none ""

/-- One pass replacing `\r\n` and bare `\r` by `\n`, the composition of the
two successive `replace` calls of `cleanCSVText`. -/
def replaceCRLF : List Char → List Char
  | [] => []
  | '\r' :: '\n' :: rest => '\n' :: replaceCRLF rest
  | '\r' :: rest => '\n' :: replaceCRLF rest
  | c :: rest => c :: replaceCRLF rest

/-- The byte-order-mark character U+FEFF. -/
def bomChar : Char := Char.ofNat 65279

/-- `FlexibleCSVAnalyzer.cleanCSVText`: normalize newlines, strip a leading
byte-order mark, trim the whole text. -/
def cleanCSVText (s : String) : String :=
  let cs := replaceCRLF s.data
  let cs2 := match cs with
    | c :: rest => if c = bomChar then rest else c :: rest
    | [] => []
  strTrim (String.mk cs2)

/-- Does the (already trimmed) line start with the comment marker `#`? -/
def startsHash (l : String) : Bool :=
  match l.data with
  | '#' :: _ => true
  | _ => false

/-- `FlexibleCSVAnalyzer.splitLines`: split on `\n`, trim each line, drop
empty lines and comment lines. -/
def splitLines (s : String) : List String :=
  ((jsSplitNewline s).map strTrim).filter (fun l => l ≠ "" ∧ startsHash l = false)

/-- Frequency bump for the plain-object frequency table of `findMode`. -/
def bumpFreq (n : ℕ) : List (ℕ × ℕ) → List (ℕ × ℕ)
  | [] => [(n, 1)]
  | (k, v) :: rest => if k = n then (k, v + 1) :: rest else (k, v) :: bumpFreq n rest

/-- `frequency[num] || 0` lookup. -/
def freqOf (n : ℕ) (freq : List (ℕ × ℕ)) : ℕ :=
  ((freq.find? (fun p => p.1 = n)).map Prod.snd).getD 0

/-- Loop body of `FlexibleCSVAnalyzer.findMode`: walk the array keeping the
first element whose running frequency reaches each new maximum. -/
def findModeGo : List ℕ → List (ℕ × ℕ) → ℕ → ℕ → ℕ
  | [], _, _, mode => mode
  | n :: rest, freq, maxCount, mode =>
    let f := freqOf n freq + 1
    if f > maxCount then findModeGo rest (bumpFreq n freq) f n
    else findModeGo rest (bumpFreq n freq) maxCount mode

/-- `FlexibleCSVAnalyzer.findMode(arr)`.  The JS version yields `undefined`
on an empty array; every caller guards `arr.length > 0`, and the model
returns `0` there. -/
def findMode (arr : List ℕ) : ℕ := findModeGo arr [] 0 (arr.headD 0)

/-- The candidate delimiters of `detectDelimiter`, in source order. -/
def delimCandidates : List Char := [',', ';', '\t', '|']

/-- Field counts of the sampled lines for one candidate delimiter:
first five raw lines, non-blank ones only, tokenized by `splitCSVLine`. -/
def sampleCounts (text : String) (d : Char) : List ℕ :=
  (((jsSplitNewline text).take 5).filter (fun l => strTrim l ≠ "")).map
    (fun l => (splitCSVLine l d).length)

/-- The `consistency` quantity of `detectDelimiter`: fraction of sampled
lines whose field count equals the mode. -/
def modeConsistency (counts : List ℕ) : ℚ :=
  ((counts.filter (fun n => n = findMode counts)).length : ℚ) / (counts.length : ℚ)

/-- Loop body of `detectDelimiter`: `acc` is the pair
(`bestDelimiter`, `maxConsistency`). -/
def detectStep (text : String) (acc : Char × ℚ) (d : Char) : Char × ℚ :=
  if 0 < (sampleCounts text d).length then
    if modeConsistency (sampleCounts text d) > acc.2 ∧ 1 < findMode (sampleCounts text d) then
      (d, modeConsistency (sampleCounts text d))
    else acc
  else acc

/-- `FlexibleCSVAnalyzer.detectDelimiter(csvText)`. -/
def detectDelimiter (text : String) : Char :=
  (delimCandidates.foldl (detectStep text) (',', 0)).1

/-- `column.replace(/[^0-9.-]/g, '')`. -/
def stripNonNumeric (s : String) : String :=
  String.mk (s.data.filter (fun c => c.isDigit ∨ c = '.' ∨ c = '-'))

/-- JS `isNaN(s)` for a string over the alphabet `[0-9.-]` (the only shape
`scoreHeaderRow` feeds it): the empty string converts to `0`; otherwise an
optional leading minus followed by a decimal literal with at least one
digit and at most one dot converts to a number, everything else to NaN. -/
def jsIsNaNStr (s : String) : Bool :=
  match s.data with
  | [] => false
  | cs =>
    let cs1 := match cs with
      | '-' :: r => r
      | l => l
    let ds := cs1.takeWhile Char.isDigit
    let rest := cs1.dropWhile Char.isDigit
    !(match rest with
      | [] => decide (ds ≠ [])
      | '.' :: fs => fs.all Char.isDigit && decide (ds ≠ [] ∨ fs ≠ [])
      | _ => false)

/-- The fixed keyword list of `scoreHeaderRow`. -/
def headerKeywords : List String :=
  ["name", "date", "id", "名前", "日付", "金額", "amount", "price", "売上", "利益"]

/-- ASCII lower-casing, mirroring `toLowerCase` on the data at hand. -/
def lowerStr (s : String) : String := String.mk (s.data.map Char.toLower)

/-- Does `k` occur at the head of `s`? -/
def leadsWith : List Char → List Char → Bool
  | [], _ => true
  | _ :: _, [] => false
  | a :: as, b :: bs => a = b && leadsWith as bs

/-- Does `k` occur anywhere inside the second list? -/
def occursIn (k : List Char) : List Char → Bool
  | [] => leadsWith k []
  | b :: bs => leadsWith k (b :: bs) || occursIn k bs

/-- JS `s.includes(k)`. -/
def containsStr (s k : String) : Bool := occursIn k.data s.data

/-- Per-column score contribution inside `scoreHeaderRow`. -/
def colScore (c : String) : ℚ :=
  if c ≠ "" ∧ strTrim c ≠ "" then
    10 + (if jsIsNaNStr (stripNonNumeric c) then 5 else 0)
      + (if headerKeywords.any (fun k => containsStr (lowerStr c) k) then 15 else 0)
  else 0

/-- `FlexibleCSVAnalyzer.scoreHeaderRow(columns, dataLines, delimiter)`. -/
def scoreHeaderRow (columns : List String) (dataLines : List String) (delim : Char) : ℚ :=
  let columnCounts := (dataLines.take 10).map (fun l => (splitCSVLine l delim).length)
  let consistency : ℚ :=
    ((columnCounts.filter (fun n => n = columns.length)).length : ℚ) /
      ((max columnCounts.length 1 : ℕ) : ℚ)
  consistency * 50 + (columns.map colScore).sum

/-- Allow-list of `cleanHeader`: word characters, whitespace, hiragana,
katakana and the CJK unified range. -/
def headerAllowed (c : Char) : Bool :=
  c.isAlphanum ∨ c = '_' ∨ c.isWhitespace ∨
    (0x3040 ≤ c.toNat ∧ c.toNat ≤ 0x309F) ∨
    (0x30A0 ≤ c.toNat ∧ c.toNat ≤ 0x30FF) ∨
    (0x4E00 ≤ c.toNat ∧ c.toNat ≤ 0x9FAF)

/-- Walk for `collapseWs`; the flag records whether the previous character
was whitespace (in which case the current run already emitted its `_`). -/
def collapseWsGo : Bool → List Char → List Char
  | _, [] => []
  | prevWs, c :: rest =>
    if c.isWhitespace then
      if prevWs then collapseWsGo true rest else '_' :: collapseWsGo true rest
    else c :: collapseWsGo false rest

/-- Collapse every maximal whitespace run to a single underscore
(`replace(/\s+/g, '_')`). -/
def collapseWs (cs : List Char) : List Char := collapseWsGo false cs

/-- The deterministic part of `FlexibleCSVAnalyzer.cleanHeader`: strip
quote characters, map disallowed characters to `_`, trim, collapse
whitespace runs to `_`. -/
def cleanHeaderCore (h : String) : String :=
  let s1 := h.data.filter (fun c => ¬(c = '"' ∨ c = squote ∨ c = btick))
  let s2 := s1.map (fun c => if headerAllowed c then c else '_')
  String.mk (collapseWs (trimChars s2))

/-- `FlexibleCSVAnalyzer.cleanHeader(header)` with the `Math.random()`
draw made explicit: `r` is the five-character suffix the JS code derives from
`Math.random().toString(36).substr(2, 5)`. -/
def cleanHeaderWith (r : String) (h : String) : String :=
  let c := cleanHeaderCore h
  if c = "" then "Column_" ++ r else c

/-- Result record of `detectHeaders`. -/
structure HeaderInfo where
  rowIndex : ℕ
  headers : List String
  deriving DecidableEq, Repr

/-- `FlexibleCSVAnalyzer.detectHeaders(lines, delimiter)`.  `rands i` is the
random suffix consumed by the `cleanHeader` call on the `i`-th header. -/
def detectHeaders (rands : ℕ → String) (lines : List String) (delim : Char) : HeaderInfo :=
  let step := fun (acc : ℕ × List String × ℚ) (i : ℕ) =>
    let columns := splitCSVLine (lines.getD i "") delim
    let score := scoreHeaderRow columns (lines.drop (i + 1)) delim
    if score > acc.2.2 then (i, columns, score) else acc
  let best := (List.range (min 5 lines.length)).foldl step (0, [], 0)
  { rowIndex := best.1
    headers := best.2.1.mapIdx (fun i h => cleanHeaderWith (rands i) h) }

/-- Group part of the thousands regex `(,\d{3})*(\.\d+)?$`: after the
leading digit block, the remainder must be comma groups of exactly three
digits, optionally followed by a dot and at least one digit. -/
def matchGroups : List Char → Bool
  | [] => true
  | '.' :: rest => decide (rest ≠ []) && rest.all Char.isDigit
  | ',' :: d1 :: d2 :: d3 :: rest =>
    d1.isDigit && d2.isDigit && d3.isDigit && matchGroups rest
  | _ => false

/-- Recognizer of `/^-?\d{1,3}(,\d{3})*(\.\d+)?$/`. -/
def matchThousandsChars (cs : List Char) : Bool :=
  let cs1 := match cs with
    | '-' :: r => r
    | l => l
  let ds := cs1.takeWhile Char.isDigit
  let rest := cs1.dropWhile Char.isDigit
  decide (1 ≤ ds.length ∧ ds.length ≤ 3) && matchGroups rest

/-- Recognizer of `/^-?\d+(\.\d+)?$/`. -/
def matchPlainChars (cs : List Char) : Bool :=
  let cs1 := match cs with
    | '-' :: r => r
    | l => l
  let ds := cs1.takeWhile Char.isDigit
  let rest := cs1.dropWhile Char.isDigit
  decide (ds ≠ []) &&
    (match rest with
     | [] => true
     | '.' :: fs => decide (fs ≠ []) && fs.all Char.isDigit
     | _ => false)

/-- Digit-string to natural number. -/
def parseNatDigits (ds : List Char) : ℕ :=
  ds.foldl (fun acc c => acc * 10 + (c.toNat - 48)) 0

/-- `parseFloat` on an unsigned decimal literal `digits[.digits]`. -/
def parseUnsignedDec (cs : List Char) : ℚ :=
  let ds := cs.takeWhile Char.isDigit
  let rest := cs.dropWhile Char.isDigit
  (parseNatDigits ds : ℚ) +
    (match rest with
     | '.' :: fs =>
       ((parseNatDigits (fs.takeWhile Char.isDigit) : ℚ) /
         ((10 : ℚ) ^ (fs.takeWhile Char.isDigit).length))
     | _ => 0)

/-- `parseFloat` on an optionally signed decimal literal. -/
def parseDecChars (cs : List Char) : ℚ :=
  match cs with
  | '-' :: rest => -(parseUnsignedDec rest)
  | l => parseUnsignedDec l

/-- `FlexibleCSVAnalyzer.convertValue(value)`: empty → null, thousands
pattern → number after removing commas, plain decimal → number,
otherwise the trimmed text. -/
def convertValue (value : String) : Value :=
  if value = "" ∨ strTrim value = "" then Value.null
  else if matchThousandsChars (strTrim value).data then
    Value.number (parseDecChars ((strTrim value).data.filter (fun c => c ≠ ',')))
  else if matchPlainChars (strTrim value).data then
    Value.number (parseDecChars (strTrim value).data)
  else Value.text (strTrim value)

/-- JS `row[key] = v`: update the value in place when the key exists,
append a fresh entry otherwise. -/
def objInsert (k : String) (v : Value) : Record → Record
  | [] => [(k, v)]
  | (k1, v1) :: rest =>
    if k1 = k then (k1, v) :: rest else (k1, v1) :: objInsert k v rest

/-- Key list of a row object. -/
def keysOf (r : Record) : List String := r.map Prod.fst

/-- The `headers.forEach((header, index) => ...)` loop building one row:
`i` is the running index into the repaired value list. -/
def buildRowGo (vs : List String) : ℕ → List String → Record → Record
  | _, [], row => row
  | i, h :: rest, row =>
    buildRowGo vs (i + 1) rest (objInsert h (convertValue (vs.getD i "")) row)

/-- Build one Record from the header list and the repaired field list. -/
def buildRow (headers : List String) (vs : List String) : Record :=
  buildRowGo vs 0 headers []

/-- Row repair of `parseDataRows`: pad with empty strings when too short,
truncate when too long. -/
def repairRow (headers : List String) (values : List String) : List String :=
  (values ++ List.replicate (headers.length - values.length) "").take headers.length

/-- Per-line walk of `parseDataRows` over the lines after the header. -/
def parseRowsGo (headers : List String) (delim : Char) : List String → List Record
  | [] => []
  | line :: rest =>
    if strTrim line = "" then parseRowsGo headers delim rest
    else
      buildRow headers (repairRow headers (splitCSVLine line delim)) ::
        parseRowsGo headers delim rest

/-- `FlexibleCSVAnalyzer.parseDataRows(lines, headerInfo, delimiter)`. -/
def parseDataRows (lines : List String) (hi : HeaderInfo) (delim : Char) : List Record :=
  parseRowsGo hi.headers delim (lines.drop (hi.rowIndex + 1))

/-- Quality report: score plus issue strings. -/
structure QualityReport where
  score : ℤ
  issues : List String
  deriving DecidableEq, Repr

/-- Total number of `(record, column)` cells. -/
def totalCellCount (data : List Record) : ℕ := (data.map List.length).sum

/-- Number of cells whose value is `null` or the empty string. -/
def emptyCellCount (data : List Record) : ℕ :=
  (data.map (fun row =>
    (row.filter (fun p => p.2 = Value.null ∨ p.2 = Value.text "")).length)).sum

/-- `emptyCells / totalCells`. -/
def emptyCellRatio (data : List Record) : ℚ :=
  (emptyCellCount data : ℚ) / (totalCellCount data : ℚ)

/-- JS `q.toFixed(1)` for the non-negative rationals produced here:
round to one decimal place, half away from zero. -/
def ratToFixed1 (q : ℚ) : String :=
  let n : ℤ := ⌊q * 10 + 1 / 2⌋
  toString (n / 10) ++ "." ++ toString (n % 10)

/-- `FlexibleCSVAnalyzer.assessDataQuality(data)`. -/
def assessDataQuality (data : List Record) : QualityReport :=
  if data = [] then ⟨0, ["No data rows found"]⟩
  else
    ⟨max 0 (if emptyCellRatio data > 3 / 10 then (100 : ℤ) - 30 else 100),
     if emptyCellRatio data > 3 / 10 then
       ["High empty cell ratio: " ++ ratToFixed1 (emptyCellRatio data * 100) ++ "%"]
     else []⟩

/-- Metadata block of the parse result. -/
structure ParseMetadata where
  totalLines : ℕ
  emptyLines : ℕ
  dataQuality : QualityReport
  deriving DecidableEq, Repr

/-- Full result of `parseCSVIntelligent`. -/
structure ParseResult where
  headers : List String
  data : List Record
  rowCount : ℕ
  delimiter : Char
  headerRowIndex : ℕ
  metadata : ParseMetadata
  deriving DecidableEq, Repr

/-- `FlexibleCSVAnalyzer.parseCSVIntelligent(csvText)`; `rands` supplies
the random suffixes consumed by `cleanHeader`. -/
def parseCSVIntelligent (rands : ℕ → String) (csvText : String) : ParseResult :=
  let delimiter := detectDelimiter csvText
  let cleanedText := cleanCSVText csvText
  let lines := splitLines cleanedText
  let headerInfo := detectHeaders rands lines delimiter
  let parsedData := parseDataRows lines headerInfo delimiter
  { headers := headerInfo.headers
    data := parsedData
    rowCount := parsedData.length
    delimiter := delimiter
    headerRowIndex := headerInfo.rowIndex
    metadata :=
      { totalLines := lines.length
        emptyLines := (lines.filter (fun l => strTrim l = "")).length
        dataQuality := assessDataQuality parsedData } }

/-- Numeric summary block of a column profile. -/
structure ColumnStatistics where
  min : ℚ
  max : ℚ
  average : ℚ
  sum : ℚ
  deriving DecidableEq, Repr

/-- Per-column profile of `analyzeDataAdvanced`.  `sampleValues` keeps the
JS values, where `none` models `undefined` (a key missing from a row). -/
structure ColumnStats where
  type : String
  nonEmptyCount : ℕ
  uniqueCount : ℕ
  sampleValues : List (Option Value)
  statistics : Option ColumnStatistics
  deriving DecidableEq, Repr

/-- `data.map(row => row[column]).filter(v => v !== null && v !== '')`:
note that `undefined` (a missing key) passes this filter. -/
def gatherValues (data : List Record) (col : String) : List (Option Value) :=
  (data.map (fun row => (row.find? (fun p => p.1 = col)).map Prod.snd)).filter
    (fun v => v ≠ some Value.null ∧ v ≠ some (Value.text ""))

/-- The numeric members of the gathered values. -/
def numericValuesOf (data : List Record) (col : String) : List ℚ :=
  (gatherValues data col).filterMap (fun v =>
    match v with
    | some (Value.number q) => some q
    | _ => none)

/-- `Math.min(...arr)` over a non-empty list (callers guard emptiness). -/
def listMin : List ℚ → ℚ
  | [] => 0
  | x :: xs => xs.foldl min x

/-- `Math.max(...arr)` over a non-empty list (callers guard emptiness). -/
def listMax : List ℚ → ℚ
  | [] => 0
  | x :: xs => xs.foldl max x

/-- The per-column body of `analyzeDataAdvanced`. -/
def profileColumn (data : List Record) (col : String) : ColumnStats :=
  let values := gatherValues data col
  let nums := numericValuesOf data col
  { type :=
      if (nums.length : ℚ) > (values.length : ℚ) * (7 / 10) then "numeric" else "text"
    nonEmptyCount := values.length
    uniqueCount := values.dedup.length
    sampleValues := values.take 5
    statistics :=
      if nums.length > 0 then
        some { min := listMin nums
               max := listMax nums
               average := nums.sum / (nums.length : ℚ)
               sum := nums.sum }
      else none }

/-- The `columnAnalysis` object of `analyzeDataAdvanced`, as the ordered
list of per-header column profiles. -/
def analyzeColumnAnalysis (headers : List String) (data : List Record) :
    List (String × ColumnStats) :=
  headers.map (fun col => (col, profileColumn data col))

/-- Row-capping loop of `CSVProcessor.parseCSVStream`: each arriving row
bumps `rowCount` and is cleaned and kept only while the count is within
`maxRows`.  `clean` abstracts `cleanRowData`, `rows` the rows emitted by
the csv-parser stream, `n` the running count. -/
def parseStreamGo {α : Type} (clean : α → α) (maxRows : ℕ) : ℕ → List α → List α
  | _, [] => []
  | n, r :: rest =>
    if n + 1 ≤ maxRows then clean r :: parseStreamGo clean maxRows (n + 1) rest
    else parseStreamGo clean maxRows (n + 1) rest

/-- The materialized `results` list of `CSVProcessor.parseCSVStream`. -/
def parseCSVStreamRows {α : Type} (clean : α → α) (maxRows : ℕ) (rows : List α) : List α :=
  parseStreamGo clean maxRows 0 rows

/-- The `maxRows` constant set in the `CSVProcessor` constructor. -/
def processorMaxRows : ℕ := 10000

/-- A delimiter is perfectly consistent on a text when there is at least one
sampled line and every sampled line tokenizes to the same field count, that
count (the mode) being greater than one. -/
def goodFor (text : String) (d : Char) : Prop :=
  sampleCounts text d ≠ [] ∧ 1 < findMode (sampleCounts text d) ∧
    ∀ x ∈ sampleCounts text d, x = findMode (sampleCounts text d)

instance goodFor.decidable (text : String) (d : Char) : Decidable (goodFor text d) := by
  unfold goodFor
  infer_instance

/-! Helper lemmas about `findMode` and `modeConsistency`. -/

theorem findModeGo_const (c : ℕ) :
    ∀ (arr : List ℕ) (freq : List (ℕ × ℕ)) (mc : ℕ),
      (∀ x ∈ arr, x = c) → findModeGo arr freq mc c = c := by
  intro arr
  induction arr with
  | nil => intro freq mc _; rfl
  | cons n rest ih =>
    intro freq mc h
    have hn : n = c := h n (List.mem_cons_self _ _)
    have hrest : ∀ x ∈ rest, x = c := fun x hx => h x (List.mem_cons_of_mem _ hx)
    simp only [findModeGo]
    split
    · rw [hn]; exact ih _ _ hrest
    · exact ih _ _ hrest

theorem findMode_const {arr : List ℕ} {c : ℕ} (hne : arr ≠ [])
    (h : ∀ x ∈ arr, x = c) : findMode arr = c := by
  cases arr with
  | nil => exact absurd rfl hne
  | cons a l =>
    have ha : a = c := h a (List.mem_cons_self _ _)
    unfold findMode
    have hh : (a :: l).headD 0 = c := by simp [ha]
    rw [hh]
    exact findModeGo_const c _ _ _ h

theorem length_filter_lt_of_exists {α : Type} {p : α → Bool} {l : List α}
    (h : ∃ x ∈ l, p x = false) : (l.filter p).length < l.length := by
  induction l with
  | nil => simp at h
  | cons a t ih =>
    by_cases hp : p a = true
    · obtain ⟨x, hx, hpx⟩ := h
      rcases List.mem_cons.mp hx with rfl | hxt
      · rw [hp] at hpx; cases hpx
      · have := ih ⟨x, hxt, hpx⟩
        simp only [List.filter_cons, hp, if_pos]
        simpa using Nat.succ_lt_succ this
    · have hp2 : p a = false := Bool.eq_false_iff.mpr hp
      simp only [List.filter_cons, hp2]
      calc (t.filter p).length ≤ t.length := List.length_filter_le _ _
        _ < (a :: t).length := by simp

theorem modeConsistency_le_one {counts : List ℕ} (hne : counts ≠ []) :
    modeConsistency counts ≤ 1 := by
  have hlen : (0 : ℚ) < counts.length := by
    exact_mod_cast List.length_pos.mpr hne
  unfold modeConsistency
  rw [div_le_one hlen]
  exact_mod_cast List.length_filter_le _ _

theorem modeConsistency_eq_one {counts : List ℕ} (hne : counts ≠ [])
    (hall : ∀ x ∈ counts, x = findMode counts) : modeConsistency counts = 1 := by
  have hfil : counts.filter (fun n => n = findMode counts) = counts :=
    List.filter_eq_self.mpr (fun a ha => by simpa using hall a ha)
  have hlen : ((counts.length : ℚ)) ≠ 0 := by
    exact_mod_cast Nat.pos_iff_ne_zero.mp (List.length_pos.mpr hne)
  unfold modeConsistency
  rw [hfil, div_self hlen]

theorem modeConsistency_lt_one {counts : List ℕ} (hne : counts ≠ [])
    (hex : ∃ x ∈ counts, x ≠ findMode counts) : modeConsistency counts < 1 := by
  have hlen : (0 : ℚ) < counts.length := by
    exact_mod_cast List.length_pos.mpr hne
  have hfil : (counts.filter (fun n => n = findMode counts)).length < counts.length := by
    apply length_filter_lt_of_exists
    obtain ⟨x, hx, hxne⟩ := hex
    exact ⟨x, hx, by simpa using hxne⟩
  unfold modeConsistency
  rw [div_lt_one hlen]
  exact_mod_cast hfil

/-! Helper lemmas about `detectStep`. -/

theorem detectStep_good {t : String} {d : Char} {acc : Char × ℚ}
    (hg : goodFor t d) (hlt : acc.2 < 1) : detectStep t acc d = (d, 1) := by
  obtain ⟨hne, hmode, hall⟩ := hg
  have hcons : modeConsistency (sampleCounts t d) = 1 := modeConsistency_eq_one hne hall
  have hlen : 0 < (sampleCounts t d).length := List.length_pos.mpr hne
  unfold detectStep
  rw [if_pos hlen, if_pos ⟨by rw [hcons]; exact hlt, hmode⟩, hcons]

theorem detectStep_notgood {t : String} {d : Char} {acc : Char × ℚ}
    (hng : ¬ goodFor t d) (hlt : acc.2 < 1) : (detectStep t acc d).2 < 1 := by
  unfold detectStep
  by_cases hlen : 0 < (sampleCounts t d).length
  · rw [if_pos hlen]
    have hne : sampleCounts t d ≠ [] := by
      intro hnil
      rw [hnil] at hlen
      simp at hlen
    by_cases hcond : modeConsistency (sampleCounts t d) > acc.2 ∧
        1 < findMode (sampleCounts t d)
    · rw [if_pos hcond]
      have hex : ∃ x ∈ sampleCounts t d, x ≠ findMode (sampleCounts t d) := by
        by_contra hno
        push_neg at hno
        exact hng ⟨hne, hcond.2, hno⟩
      exact modeConsistency_lt_one hne hex
    · rw [if_neg hcond]; exact hlt
  · rw [if_neg hlen]; exact hlt

theorem detectStep_sat {t : String} {d : Char} {acc : Char × ℚ}
    (h1 : (1 : ℚ) ≤ acc.2) : detectStep t acc d = acc := by
  unfold detectStep
  by_cases hlen : 0 < (sampleCounts t d).length
  · rw [if_pos hlen]
    have hne : sampleCounts t d ≠ [] := by
      intro hnil; rw [hnil] at hlen; simp at hlen
    have hle : modeConsistency (sampleCounts t d) ≤ 1 := modeConsistency_le_one hne
    rw [if_neg]
    intro hcond
    exact absurd (lt_of_le_of_lt h1 hcond.1) (not_lt.mpr hle)
  · rw [if_neg hlen]

theorem detectStep_nomode {t : String} {d : Char}
    (h : sampleCounts t d = [] ∨ findMode (sampleCounts t d) ≤ 1) :
    ∀ acc, detectStep t acc d = acc := by
  intro acc
  unfold detectStep
  rcases h with hnil | hmode
  · rw [if_neg]
    rw [hnil]
    simp
  · by_cases hlen : 0 < (sampleCounts t d).length
    · rw [if_pos hlen, if_neg]
      intro hcond
      exact absurd hcond.2 (not_lt.mpr hmode)
    · rw [if_neg hlen]

/-- C3: if exactly one of the four candidate delimiters splits every sampled
line into one identical field count greater than 1, `detectDelimiter`
returns it; and if no candidate attains a modal field count above 1,
`detectDelimiter` returns the comma. -/
theorem c3_detectDelimiter_spec :
    (∀ (t : String) (d : Char), d ∈ delimCandidates → goodFor t d →
        (∀ e ∈ delimCandidates, goodFor t e → e = d) → detectDelimiter t = d) ∧
    (∀ t : String,
        (∀ e ∈ delimCandidates, sampleCounts t e = [] ∨ findMode (sampleCounts t e) ≤ 1) →
        detectDelimiter t = ',') := by
  constructor
  · intro t d hmem hg huniq
    have hmem4 : d = ',' ∨ d = ';' ∨ d = '\t' ∨ d = '|' := by
      simpa [delimCandidates] using hmem
    show (List.foldl (detectStep t) (',', 0) delimCandidates).1 = d
    rw [show delimCandidates = [',', ';', '\t', '|'] from rfl]
    simp only [List.foldl]
    rcases hmem4 with rfl | rfl | rfl | rfl
    · rw [detectStep_good hg (by norm_num)]
      rw [@detectStep_sat t ';' (',', 1) (by norm_num),
        @detectStep_sat t '\t' (',', 1) (by norm_num),
        @detectStep_sat t '|' (',', 1) (by norm_num)]
    · have h1 : ¬ goodFor t ',' := fun hc => absurd (huniq ',' (by decide) hc) (by decide)
      have e1 : (detectStep t (',', 0) ',').2 < 1 := detectStep_notgood h1 (by norm_num)
      rw [detectStep_good hg e1]
      rw [@detectStep_sat t '\t' (';', 1) (by norm_num),
        @detectStep_sat t '|' (';', 1) (by norm_num)]
    · have h1 : ¬ goodFor t ',' := fun hc => absurd (huniq ',' (by decide) hc) (by decide)
      have h2 : ¬ goodFor t ';' := fun hc => absurd (huniq ';' (by decide) hc) (by decide)
      have e1 : (detectStep t (',', 0) ',').2 < 1 := detectStep_notgood h1 (by norm_num)
      have e2 : (detectStep t (detectStep t (',', 0) ',') ';').2 < 1 := detectStep_notgood h2 e1
      rw [detectStep_good hg e2]
      rw [@detectStep_sat t '|' ('\t', 1) (by norm_num)]
    · have h1 : ¬ goodFor t ',' := fun hc => absurd (huniq ',' (by decide) hc) (by decide)
      have h2 : ¬ goodFor t ';' := fun hc => absurd (huniq ';' (by decide) hc) (by decide)
      have h3 : ¬ goodFor t '\t' := fun hc => absurd (huniq '\t' (by decide) hc) (by decide)
      have e1 : (detectStep t (',', 0) ',').2 < 1 := detectStep_notgood h1 (by norm_num)
      have e2 : (detectStep t (detectStep t (',', 0) ',') ';').2 < 1 := detectStep_notgood h2 e1
      have e3 : (detectStep t (detectStep t (detectStep t (',', 0) ',') ';') '\t').2 < 1 :=
        detectStep_notgood h3 e2
      rw [detectStep_good hg e3]
  · intro t h
    show (List.foldl (detectStep t) (',', 0) delimCandidates).1 = ','
    rw [show delimCandidates = [',', ';', '\t', '|'] from rfl]
    simp only [List.foldl]
    rw [detectStep_nomode (h ',' (by decide)) (',', 0),
      detectStep_nomode (h ';' (by decide)) (',', 0),
      detectStep_nomode (h '\t' (by decide)) (',', 0),
      detectStep_nomode (h '|' (by decide)) (',', 0)]

/-- Witness for C3: `;` splits both sampled lines of `"a;b\nc;d"` into two
fields while no other candidate does, and `"abc"` offers no candidate with
a modal field count above 1, so the comma default is returned. -/
theorem c3_witness :
    detectDelimiter "a;b\nc;d" = ';' ∧ detectDelimiter "abc" = ',' :=
  ⟨c3_detectDelimiter_spec.1 "a;b\nc;d" ';' (by decide) (by decide) (by decide),
   c3_detectDelimiter_spec.2 "abc" (by decide)⟩

/-- C4: the quote-aware tokenizer hides delimiters inside quoted spans and
turns a doubled quote inside a quoted span into one literal quote. -/
theorem c4_splitCSVLine_examples :
    splitCSVLine "a,\"b,c\",d" ',' = ["a", "b,c", "d"] ∧
    splitCSVLine "\"a\"\"b\"" ',' = ["a\"b"] := by
  constructor
  · decide
  · decide

/-! Helper lemmas about row objects. -/

theorem keysOf_objInsert (k : String) (v : Value) (r : Record) :
    keysOf (objInsert k v r) = if k ∈ keysOf r then keysOf r else keysOf r ++ [k] := by
  induction r with
  | nil => simp [objInsert, keysOf]
  | cons p rest ih =>
    obtain ⟨k1, v1⟩ := p
    by_cases hk : k1 = k
    · subst hk
      simp [objInsert, keysOf]
    · have hne : ¬ (k = k1) := fun he => hk he.symm
      by_cases hm : k ∈ List.map Prod.fst rest
      · simp only [objInsert, if_neg hk, keysOf, List.map_cons] at *
        simp [ih, hm, List.mem_cons, hne]
      · simp only [objInsert, if_neg hk, keysOf, List.map_cons] at *
        simp [ih, hm, List.mem_cons, hne]

theorem length_objInsert (k : String) (v : Value) (r : Record) :
    (objInsert k v r).length = if k ∈ keysOf r then r.length else r.length + 1 := by
  induction r with
  | nil => simp [objInsert, keysOf]
  | cons p rest ih =>
    obtain ⟨k1, v1⟩ := p
    by_cases hk : k1 = k
    · subst hk
      simp [objInsert, keysOf]
    · have hne : ¬ (k = k1) := fun he => hk he.symm
      by_cases hm : k ∈ List.map Prod.fst rest
      · simp only [objInsert, if_neg hk, keysOf, List.length_cons] at *
        simp [ih, hm, List.mem_cons, hne]
      · simp only [objInsert, if_neg hk, keysOf, List.length_cons] at *
        simp [ih, hm, List.mem_cons, hne]

theorem buildRowGo_length (vs : List String) :
    ∀ (hs : List String) (i : ℕ) (row : Record), hs.Nodup →
      (∀ h ∈ hs, h ∉ keysOf row) →
      (buildRowGo vs i hs row).length = row.length + hs.length := by
  intro hs
  induction hs with
  | nil => intro i row _ _; simp [buildRowGo]
  | cons h rest ih =>
    intro i row hnd hdisj
    have hnotin : h ∉ keysOf row := hdisj h (List.mem_cons_self _ _)
    simp only [buildRowGo]
    rw [ih (i + 1) _ (List.Nodup.of_cons hnd) ?hdisj2]
    case hdisj2 =>
      intro h2 hh2
      rw [keysOf_objInsert, if_neg hnotin]
      intro hmem
      rcases List.mem_append.mp hmem with hmem1 | hmem2
      · exact hdisj h2 (List.mem_cons_of_mem _ hh2) hmem1
      · have : h2 = h := by simpa using hmem2
        rw [this] at hh2
        exact (List.nodup_cons.mp hnd).1 hh2
    · rw [length_objInsert, if_neg hnotin]
      simp only [List.length_cons]
      omega

theorem buildRow_length {hs : List String} (vs : List String) (hnd : hs.Nodup) :
    (buildRow hs vs).length = hs.length := by
  unfold buildRow
  rw [buildRowGo_length vs hs 0 [] hnd (by simp [keysOf])]
  simp

theorem parseRowsGo_length {hs : List String} {delim : Char} (hnd : hs.Nodup) :
    ∀ (ls : List String), ∀ row ∈ parseRowsGo hs delim ls, row.length = hs.length := by
  intro ls
  induction ls with
  | nil => intro row hrow; simp [parseRowsGo] at hrow
  | cons l rest ih =>
    intro row hrow
    simp only [parseRowsGo] at hrow
    by_cases hl : strTrim l = ""
    · rw [if_pos hl] at hrow
      exact ih row hrow
    · rw [if_neg hl] at hrow
      rcases List.mem_cons.mp hrow with rfl | hmem
      · exact buildRow_length _ hnd
      · exact ih row hmem

/-- C5 (amended): when the header names are pairwise distinct, every Record
produced by `parseDataRows` has exactly as many entries as the header; with
header `[a,b,c]` a data line tokenizing to `[4,5]` is padded and yields the
Record `{a:4, b:5, c:null}`.  (With duplicated header names the JS object
collapses the duplicates, see `c5_counterexample`.) -/
theorem c5_record_length (lines : List String) (hi : HeaderInfo) (delim : Char)
    (hnd : hi.headers.Nodup) :
    (∀ row ∈ parseDataRows lines hi delim, row.length = hi.headers.length) ∧
    parseDataRows ["a,b,c", "4,5"] ⟨0, ["a", "b", "c"]⟩ ',' =
      [[("a", Value.number 4), ("b", Value.number 5), ("c", Value.null)]] := by
  constructor
  · intro row hrow
    exact parseRowsGo_length hnd _ row hrow
  · decide

/-- Witness for C5: the single record of the padded example has the header
length three. -/
theorem c5_witness :
    ((parseDataRows ["a,b,c", "4,5"] ⟨0, ["a", "b", "c"]⟩ ',').headD []).length = 3 :=
  (c5_record_length ["a,b,c", "4,5"] ⟨0, ["a", "b", "c"]⟩ ',' (by decide)).1 _ (by decide)

/-- Counterexample for C5 as frozen: with the duplicated header `[a,a]` the
produced row object has a single entry, not the header length two, because
the second assignment to `a` overwrites the first. -/
theorem c5_counterexample :
    ((parseDataRows ["a,a", "1,2"] ⟨0, ["a", "a"]⟩ ',').headD []).length ≠
      (HeaderInfo.mk 0 ["a", "a"]).headers.length := by
  decide

/-- C1 (amended): when fewer than two usable lines remain after
normalization, `parseCSVIntelligent` does not fail: it returns a Dataset
with no Records, row count zero, and the quality report score 0 with the
single issue `No data rows found`. -/
theorem c1_few_lines_no_failure (rands : ℕ → String) (text : String)
    (h : (splitLines (cleanCSVText text)).length ≤ 1) :
    (parseCSVIntelligent rands text).data = [] ∧
    (parseCSVIntelligent rands text).rowCount = 0 ∧
    (parseCSVIntelligent rands text).metadata.dataQuality =
      ⟨0, ["No data rows found"]⟩ := by
  have hdrop : (splitLines (cleanCSVText text)).drop
      ((detectHeaders rands (splitLines (cleanCSVText text)) (detectDelimiter text)).rowIndex
        + 1) = [] :=
    List.drop_eq_nil_of_le (le_trans h (Nat.le_add_left 1 _))
  have hdata : (parseCSVIntelligent rands text).data = [] := by
    show parseDataRows (splitLines (cleanCSVText text))
      (detectHeaders rands (splitLines (cleanCSVText text)) (detectDelimiter text))
      (detectDelimiter text) = []
    unfold parseDataRows
    rw [hdrop]
    rfl
  refine ⟨hdata, ?_, ?_⟩
  · show (parseDataRows (splitLines (cleanCSVText text))
      (detectHeaders rands (splitLines (cleanCSVText text)) (detectDelimiter text))
      (detectDelimiter text)).length = 0
    unfold parseDataRows
    rw [hdrop]
    rfl
  · show assessDataQuality (parseDataRows (splitLines (cleanCSVText text))
      (detectHeaders rands (splitLines (cleanCSVText text)) (detectDelimiter text))
      (detectDelimiter text)) = ⟨0, ["No data rows found"]⟩
    unfold parseDataRows
    rw [hdrop]
    rfl

/-- Witness for C1: the single-header-line input `"a,b"` has one usable
line, and the parse returns the empty Dataset rather than failing. -/
theorem c1_witness :
    (parseCSVIntelligent (fun _ => "R") "a,b").data = [] ∧
    (parseCSVIntelligent (fun _ => "R") "a,b").rowCount = 0 ∧
    (parseCSVIntelligent (fun _ => "R") "a,b").metadata.dataQuality =
      ⟨0, ["No data rows found"]⟩ :=
  c1_few_lines_no_failure (fun _ => "R") "a,b" (by decide)

/-- Counterexample for C1 as frozen: on a single header line with no data
lines the engine raises no error and returns a complete Dataset value, so
the parse does not fail with `InsufficientDataError`. -/
theorem c1_counterexample :
    parseCSVIntelligent (fun _ => "R") "a,b" =
      { headers := ["a", "b"], data := [], rowCount := 0, delimiter := ',',
        headerRowIndex := 0,
        metadata := { totalLines := 1, emptyLines := 0,
                      dataQuality := ⟨0, ["No data rows found"]⟩ } } := by
  decide

/-! Helper lemma for the stream row cap. -/

theorem parseStreamGo_take {α : Type} (clean : α → α) (maxRows : ℕ) :
    ∀ (rows : List α) (n : ℕ),
      parseStreamGo clean maxRows n rows = ((rows.take (maxRows - n)).map clean) := by
  intro rows
  induction rows with
  | nil => intro n; simp [parseStreamGo]
  | cons r rest ih =>
    intro n
    simp only [parseStreamGo]
    by_cases h : n + 1 ≤ maxRows
    · rw [if_pos h, ih]
      have he : maxRows - n = (maxRows - (n + 1)) + 1 := by omega
      rw [he]
      simp [List.take_succ_cons]
    · rw [if_neg h, ih]
      have h1 : maxRows - n = 0 := by omega
      have h2 : maxRows - (n + 1) = 0 := by omega
      simp [h1, h2]

/-- C2 (amended): `parseCSVIntelligent` accepts no row-count ceiling (see
`c2_counterexample`); the bounded materialization lives in
`CSVProcessor.parseCSVStream`, whose result list is the cleaned prefix of
the incoming rows of length at most the fixed constructor constant
`maxRows = 10000` — a per-instance constant, not a per-call argument. -/
theorem c2_stream_row_cap {α : Type} (clean : α → α) (maxRows : ℕ) (rows : List α) :
    parseCSVStreamRows clean maxRows rows = (rows.take maxRows).map clean ∧
    (parseCSVStreamRows clean maxRows rows).length ≤ maxRows ∧
    (parseCSVStreamRows clean processorMaxRows rows).length ≤ 10000 := by
  have h0 : parseCSVStreamRows clean maxRows rows = (rows.take maxRows).map clean := by
    unfold parseCSVStreamRows
    rw [parseStreamGo_take]
    simp
  refine ⟨h0, ?_, ?_⟩
  · rw [h0, List.length_map]
    exact List.length_take_le _ _
  · have h1 : parseCSVStreamRows clean processorMaxRows rows =
        (rows.take processorMaxRows).map clean := by
      unfold parseCSVStreamRows
      rw [parseStreamGo_take]
      simp
    rw [h1, List.length_map]
    exact List.length_take_le _ _

/-- Counterexample for C2 as frozen: `parseCSVIntelligent` has no row-limit
parameter and materializes every data row; on an input with three data rows
the Dataset holds 3 records, exceeding a caller-proposed ceiling of 2. -/
theorem c2_counterexample :
    (parseCSVIntelligent (fun _ => "R") "h1,h2\n1,2\n3,4\n5,6").rowCount = 3 ∧
    ¬ (3 ≤ 2) := by
  constructor
  · decide
  · decide

/-- C6: `convertValue` sends the empty (or all-whitespace) string to Null,
a thousands-separated numeral to the Number read after dropping the group
separators, a plain decimal numeral to its Number, and any other string to
Text holding the trimmed input unchanged; in particular
`"1,234.56" ↦ Number(1234.56)`, `"abc" ↦ Text("abc")`, `"" ↦ Null`. -/
theorem c6_convertValue_spec :
    (∀ s : String, strTrim s = "" → convertValue s = Value.null) ∧
    (∀ s : String, strTrim s ≠ "" → matchThousandsChars (strTrim s).data = true →
      convertValue s =
        Value.number (parseDecChars ((strTrim s).data.filter (fun c => c ≠ ',')))) ∧
    (∀ s : String, strTrim s ≠ "" → matchThousandsChars (strTrim s).data = false →
      matchPlainChars (strTrim s).data = true →
      convertValue s = Value.number (parseDecChars (strTrim s).data)) ∧
    (∀ s : String, strTrim s ≠ "" → matchThousandsChars (strTrim s).data = false →
      matchPlainChars (strTrim s).data = false →
      convertValue s = Value.text (strTrim s)) ∧
    convertValue "1,234.56" = Value.number (1234 + 56 / 100) ∧
    convertValue "abc" = Value.text "abc" ∧
    convertValue "" = Value.null := by
  have hne : ∀ s : String, strTrim s ≠ "" → ¬ (s = "" ∨ strTrim s = "") := by
    intro s hs
    rintro (rfl | h)
    · exact hs rfl
    · exact hs h
  refine ⟨?_, ?_, ?_, ?_, by decide, by decide, by decide⟩
  · intro s h
    unfold convertValue
    rw [if_pos (Or.inr h)]
  · intro s h ht
    unfold convertValue
    rw [if_neg (hne s h), if_pos ht]
  · intro s h ht hp
    unfold convertValue
    rw [if_neg (hne s h), if_neg (by simp [ht]), if_pos hp]
  · intro s h ht hp
    unfold convertValue
    rw [if_neg (hne s h), if_neg (by simp [ht]), if_neg (by simp [hp])]

/-- Witness for C6: `" 12 "` trims to the thousands-pattern numeral `12`
and coerces to Number 12. -/
theorem c6_witness : convertValue " 12 " = Value.number 12 := by
  have h := c6_convertValue_spec.2.1 " 12 " (by decide) (by decide)
  rw [h]
  decide

/-- C7 evidence (code bug): the placeholder name substituted for a header
that cleans to the empty string is built from the `Math.random()` draw, so
two runs with different draws produce different column names — the cleaning
is not deterministic — while a header with a non-empty cleaned form does
not depend on the draw. -/
theorem c7_cleanHeader_random_dependence :
    cleanHeaderWith "abcde" "\"\"" = "Column_abcde" ∧
    cleanHeaderWith "fghij" "\"\"" = "Column_fghij" ∧
    cleanHeaderWith "abcde" "\"\"" ≠ cleanHeaderWith "fghij" "\"\"" ∧
    (∀ r1 r2 : String, cleanHeaderWith r1 "name" = cleanHeaderWith r2 "name") := by
  refine ⟨by decide, by decide, by decide, ?_⟩
  intro r1 r2
  rfl

/-- C8 (amended): a column of the `analyzeDataAdvanced` output carries the
{min, max, average, sum} block exactly when at least one gathered value is
a Number — not exactly when the column is classified numeric.  Every
numeric-classified column carries the block, but a text-classified column
with some (at most 70%) Number values carries it as well
(see `c8_counterexample`). -/
theorem c8_stats_iff (headers : List String) (data : List Record) (col : String)
    (cs : ColumnStats) (hmem : (col, cs) ∈ analyzeColumnAnalysis headers data) :
    (cs.statistics.isSome = true ↔ 0 < (numericValuesOf data col).length) ∧
    (cs.type = "numeric" → cs.statistics.isSome = true) := by
  have hcs : cs = profileColumn data col := by
    unfold analyzeColumnAnalysis at hmem
    obtain ⟨c, _, heq⟩ := List.mem_map.mp hmem
    have h1 : c = col := congrArg Prod.fst heq
    have h2 : profileColumn data c = cs := congrArg Prod.snd heq
    rw [h1] at h2
    exact h2.symm
  subst hcs
  have hstat : (profileColumn data col).statistics.isSome = true ↔
      0 < (numericValuesOf data col).length := by
    simp only [profileColumn]
    by_cases h : 0 < (numericValuesOf data col).length
    · simp [h]
    · simp [h]
  refine ⟨hstat, ?_⟩
  intro ht
  rw [hstat]
  simp only [profileColumn] at ht
  by_cases hc : ((numericValuesOf data col).length : ℚ) >
      ((gatherValues data col).length : ℚ) * (7 / 10)
  · by_contra hz
    push_neg at hz
    have hz0 : (numericValuesOf data col).length = 0 := Nat.le_zero.mp hz
    rw [hz0] at hc
    have hnn : (0 : ℚ) ≤ ((gatherValues data col).length : ℚ) * (7 / 10) := by positivity
    simp only [Nat.cast_zero, gt_iff_lt] at hc
    linarith
  · rw [if_neg hc] at ht
    exact absurd ht (by decide)

/-- Witness for C8: a column whose single gathered value is the Number 1
carries the statistics block. -/
theorem c8_witness :
    (profileColumn [[("a", Value.number 1)]] "a").statistics.isSome = true :=
  (c8_stats_iff ["a"] [[("a", Value.number 1)]] "a"
    (profileColumn [[("a", Value.number 1)]] "a") (by decide)).1.mpr (by decide)

/-- Counterexample for C8 as frozen: a column holding one Number among
three gathered values (33%, not more than 70%) is classified `text` yet
carries the {min, max, average, sum} statistics block. -/
theorem c8_counterexample :
    ("a", profileColumn
        [[("a", Value.number 1)], [("a", Value.text "x")], [("a", Value.text "y")]] "a") ∈
      analyzeColumnAnalysis ["a"]
        [[("a", Value.number 1)], [("a", Value.text "x")], [("a", Value.text "y")]] ∧
    (profileColumn
        [[("a", Value.number 1)], [("a", Value.text "x")], [("a", Value.text "y")]] "a").type
      = "text" ∧
    (profileColumn
        [[("a", Value.number 1)], [("a", Value.text "x")], [("a", Value.text "y")]]
        "a").statistics.isSome = true := by
  refine ⟨by decide, by decide, by decide⟩

/-- C9: on a non-empty record list whose empty-cell ratio is exactly 0.4
the quality report is score 70 with the single issue naming 40.0%, and on
the empty record list it is score 0 with the single issue
`No data rows found`. -/
theorem c9_quality_spec :
    (∀ data : List Record, data ≠ [] → emptyCellRatio data = 2 / 5 →
      assessDataQuality data = ⟨70, ["High empty cell ratio: 40.0%"]⟩) ∧
    assessDataQuality [] = ⟨0, ["No data rows found"]⟩ := by
  constructor
  · intro data hne hr
    unfold assessDataQuality
    rw [if_neg hne, hr]
    have h1 : ((2 : ℚ) / 5 > 3 / 10) := by norm_num
    rw [if_pos h1, if_pos h1]
    have h2 : ((2 : ℚ) / 5 * 100) = 40 := by norm_num
    rw [h2]
    decide
  · rfl

/-- Witness for C9: one record with five columns, two of them null, has
empty-cell ratio exactly 2/5 and is scored 70 with the 40.0% issue. -/
theorem c9_witness :
    assessDataQuality
        [[("a", Value.null), ("b", Value.null), ("c", Value.number 1),
          ("d", Value.number 1), ("e", Value.number 1)]] =
      ⟨70, ["High empty cell ratio: 40.0%"]⟩ :=
  c9_quality_spec.1 _ (by decide) (by decide)

/-- C10: the engine is total — for every input string and every random
stream, `parseCSVIntelligent` returns a `ParseResult` carrying headers,
data, rowCount, delimiter, headerRowIndex and metadata, with no error
path; in particular the empty string, an input with an unterminated quote,
and an input with no recognizable delimiter all produce complete results. -/
theorem c10_parse_total :
    (∀ (rands : ℕ → String) (text : String), ∃ r : ParseResult,
        parseCSVIntelligent rands text = r ∧ r.rowCount = r.data.length ∧
        r.delimiter = detectDelimiter text ∧
        r.headerRowIndex =
          (detectHeaders rands (splitLines (cleanCSVText text)) (detectDelimiter text)).rowIndex) ∧
    parseCSVIntelligent (fun _ => "R") "" =
      ⟨[], [], 0, ',', 0, ⟨0, 0, ⟨0, ["No data rows found"]⟩⟩⟩ ∧
    parseCSVIntelligent (fun _ => "R") "a,b\n\"x,y" =
      ⟨["a", "b"], [[("a", Value.text "x,y"), ("b", Value.null)]], 1, ',', 0,
        ⟨2, 0, ⟨70, ["High empty cell ratio: 50.0%"]⟩⟩⟩ ∧
    parseCSVIntelligent (fun _ => "R") "xyz" =
      ⟨["xyz"], [], 0, ',', 0, ⟨1, 0, ⟨0, ["No data rows found"]⟩⟩⟩ := by
  refine ⟨fun rands text => ⟨parseCSVIntelligent rands text, rfl, rfl, rfl, rfl⟩,
    by decide, by decide, by decide⟩

end CSVBot
